import Mathlib

set_option maxRecDepth 40000

/-!
Shallow embedding of the request-optimization core of
`src/mcp_server/performance_optimizer.py`, together with theorems settling
the frozen claims about its specification.

Modelling conventions:
* Python `str` is modelled as `List Char` (all inputs appearing in the
  claims are ASCII); `str.lower` is modelled with `Char.toLower`.
* Wall-clock instants (`time.time()`) are modelled as an explicit `now : Nat`
  parameter threaded into every stateful operation; elapsed durations inside
  a single call are modelled as `0` (no claim inspects them).
* MD5 cache keys (`hashlib.md5(x.encode()).hexdigest()`) are modelled by the
  pre-image string `x` itself: the hash is treated as injective, so cache
  behaviour (hit iff equal pre-image) is preserved.
* Python floats that only carry exact small rationals in the claims
  (durations, rates, ratios) are modelled as `ℚ` or as integer
  numerator/denominator pairs; float-rounding is irrelevant at every
  comparison the claims exercise (noted locally where it matters).
* Fallible Python code (statements that can raise) is modelled with
  `Except PyErr`; `optimize_request`, which catches every exception at its
  top level, is a total function.
-/

/-- Exceptions that the modelled code can raise. `injected s` models a
fault injected at pipeline stage `s` (the spec's "injected failure"). -/
inductive PyErr : Type where
  | zeroDivision : PyErr
  | indexError : PyErr
  | injected : String → PyErr
deriving DecidableEq, Repr

deriving instance DecidableEq for Except

/-- Message text of an exception, modelling Python `str(e)`. -/
def PyErr.msg : PyErr → List Char
  | .zeroDivision => "division by zero".toList
  | .indexError => "pop from an empty deque".toList
  | .injected s => s.toList

/-! ## String primitives (Python `str` operations over `List Char`) -/

/-- Python `str.lower` (ASCII). -/
def lowerC (s : List Char) : List Char := s.map Char.toLower

/-- Python `needle in hay` substring test (`'' in s` is `True`). -/
def containsSub (needle : List Char) : List Char → Bool
  | [] => needle.isEmpty
  | c :: t => List.isPrefixOf needle (c :: t) || containsSub needle t

/-- Fuelled worker for `replaceAll`; fuel `hay.length + 1` always suffices
for a non-empty needle because each step consumes at least one character. -/
def replaceAllF (repl needle : List Char) : Nat → List Char → List Char
  | 0, s => s
  | _ + 1, [] => []
  | fuel + 1, c :: t =>
    if List.isPrefixOf needle (c :: t) then
      repl ++ replaceAllF repl needle fuel ((c :: t).drop needle.length)
    else
      c :: replaceAllF repl needle fuel t

/-- Python `hay.replace(needle, repl)`: replace every non-overlapping
occurrence left-to-right, never rescanning replacement text. The code only
ever calls it with a non-empty needle; for an empty needle we return the
string unchanged. -/
def replaceAll (needle repl hay : List Char) : List Char :=
  if needle.isEmpty then hay else replaceAllF repl needle (hay.length + 1) hay

/-- Python `s.split(sep)` for a one-character separator (keeps empty parts:
`"a..b".split "." = ["a", "", "b"]`, `"".split "." = [""]`). -/
def splitOnChar (sep : Char) : List Char → List (List Char)
  | [] => [[]]
  | c :: t =>
    let r := splitOnChar sep t
    if c = sep then [] :: r
    else
      match r with
      | h :: t' => (c :: h) :: t'
      | [] => [[c]]

/-- Whitespace characters recognised by Python `str.split()`/`str.strip()`
that occur in the modelled data. -/
def isSpaceC (c : Char) : Bool := c = ' ' || c = '\n' || c = '\t' || c = '\r'

/-- Worker for `splitWs`, accumulating the current word reversed. -/
def splitWsAux : List Char → List Char → List (List Char)
  | [], acc => if acc.isEmpty then [] else [acc.reverse]
  | c :: t, acc =>
    if isSpaceC c then
      if acc.isEmpty then splitWsAux t [] else acc.reverse :: splitWsAux t []
    else splitWsAux t (c :: acc)

/-- Python `s.split()` with no arguments: split on whitespace runs,
dropping empty parts. -/
def splitWs (s : List Char) : List (List Char) := splitWsAux s []

/-- Python `s.strip()`. -/
def stripWs (s : List Char) : List Char :=
  ((s.dropWhile isSpaceC).reverse.dropWhile isSpaceC).reverse

/-- Python `sep.join(parts)`. -/
def joinWith (sep : List Char) (parts : List (List Char)) : List Char :=
  List.intercalate sep parts

/-! ## TTL-LRU cache (`LRUCache`, performance_optimizer.py lines 35–115)

`cache` and `timestamps` are key-unique association lists modelling Python
dicts; `access_order` models the `deque`. The per-instance `threading.RLock`
serialises operations; the model is the sequential semantics under that
lock. -/

/-- State of one `LRUCache` instance with value type `α`. -/
structure LRUState (α : Type) where
  maxsize : Nat
  ttl : Nat
  cache : List (List Char × α)
  access_order : List (List Char)
  timestamps : List (List Char × Nat)
  hits : Nat
  misses : Nat
  evictions : Nat
  expired : Nat
deriving Repr

/-- Python `d[k]` lookup on an association list. -/
def lookupA {β : Type} : List (List Char × β) → List Char → Option β
  | [], _ => none
  | (k', v) :: t, k => if k = k' then some v else lookupA t k

/-- Python `d[k] = v`: replace in place if present, else append
(dicts preserve insertion order). -/
def insertA {β : Type} : List (List Char × β) → List Char → β → List (List Char × β)
  | [], k, v => [(k, v)]
  | (k', v') :: t, k, v =>
    if k = k' then (k, v) :: t else (k', v') :: insertA t k v

/-- Python `del d[k]` (no-op when absent; the code only deletes keys it has
just checked to be present). -/
def eraseA {β : Type} : List (List Char × β) → List Char → List (List Char × β)
  | [], _ => []
  | (k', v') :: t, k => if k = k' then t else (k', v') :: eraseA t k

/-- Models `LRUCache.__init__(maxsize, ttl)`. -/
def LRUCache.init (α : Type) (maxsize ttl : Nat) : LRUState α :=
  { maxsize := maxsize, ttl := ttl, cache := [], access_order := [],
    timestamps := [], hits := 0, misses := 0, evictions := 0, expired := 0 }

/-- Models `LRUCache.get(key)` at instant `now`. Freshness is
`now - timestamps[key] < ttl` over `ℤ` (Python float subtraction; all
modelled instants are exact). Note that on the expired branch the code's
`_remove_key` deletes only from `cache` and `timestamps`, leaving the key's
node in `access_order`. `deque.remove` on the hit path is modelled by
`List.erase` (it would raise only if the key were absent from
`access_order`, which cannot happen: every key of `cache` is inserted into
`access_order` by `put`). -/
def LRUCache.get {α : Type} (now : Nat) (key : List Char) (s : LRUState α) :
    Option α × LRUState α :=
  match lookupA s.cache key with
  | some v =>
    if (now : Int) - ((lookupA s.timestamps key).getD 0 : Int) < (s.ttl : Int) then
      (some v, { s with access_order := s.access_order.erase key ++ [key],
                        hits := s.hits + 1 })
    else
      (none, { s with cache := eraseA s.cache key,
                      timestamps := eraseA s.timestamps key,
                      expired := s.expired + 1,
                      misses := s.misses + 1 })
  | none => (none, { s with misses := s.misses + 1 })

/-- Models `LRUCache.put(key, value)` at instant `now`. When the map is at
capacity and `access_order` is empty, `deque.popleft()` raises `IndexError`
before any state is mutated. -/
def LRUCache.put {α : Type} (now : Nat) (key : List Char) (value : α)
    (s : LRUState α) : Except PyErr (LRUState α) :=
  if (lookupA s.cache key).isSome then
    .ok { s with cache := insertA s.cache key value,
                 timestamps := insertA s.timestamps key now,
                 access_order := s.access_order.erase key ++ [key] }
  else if s.cache.length ≥ s.maxsize then
    match s.access_order with
    | [] => .error .indexError
    | oldest :: rest =>
      .ok { s with cache := insertA (eraseA s.cache oldest) key value,
                   timestamps := insertA (eraseA s.timestamps oldest) key now,
                   access_order := rest ++ [key],
                   evictions := s.evictions + 1 }
  else
    .ok { s with cache := insertA s.cache key value,
                 timestamps := insertA s.timestamps key now,
                 access_order := s.access_order ++ [key] }

/-- Models `LRUCache.clear()`. -/
def LRUCache.clear {α : Type} (s : LRUState α) : LRUState α :=
  { s with cache := [], timestamps := [], access_order := [] }

/-- The statistics dictionary returned by `LRUCache.get_stats()`;
`hit_rate` is the exact rational value of the Python float expression. -/
structure CacheStats where
  hits : Nat
  misses : Nat
  evictions : Nat
  expired : Nat
  total_requests : Nat
  hit_rate : ℚ
  cache_size : Nat
deriving DecidableEq, Repr

/-- Models `LRUCache.get_stats()`. -/
def LRUCache.get_stats {α : Type} (s : LRUState α) : CacheStats :=
  let total := s.hits + s.misses
  { hits := s.hits, misses := s.misses, evictions := s.evictions,
    expired := s.expired, total_requests := total,
    hit_rate := if total > 0 then (s.hits : ℚ) / (total : ℚ) else 0,
    cache_size := s.cache.length }

/-- One externally visible cache operation, for reasoning about operation
sequences. -/
inductive CacheOp (α : Type) : Type where
  | get (now : Nat) (key : List Char) : CacheOp α
  | put (now : Nat) (key : List Char) (value : α) : CacheOp α
  | clear : CacheOp α

/-- Models `CacheOp.put` recogniser. -/
def CacheOp.isPut {α : Type} : CacheOp α → Bool
  | .put _ _ _ => true
  | _ => false

/-- Apply one operation to a cache state. A `put` that raises `IndexError`
leaves the state unchanged (the exception fires before any mutation). -/
def stepOp {α : Type} (s : LRUState α) : CacheOp α → LRUState α
  | .get now key => (LRUCache.get now key s).2
  | .put now key value =>
    match LRUCache.put now key value s with
    | .ok s' => s'
    | .error _ => s
  | .clear => LRUCache.clear s

/-- Run a sequence of cache operations. -/
def runOps {α : Type} (s : LRUState α) (ops : List (CacheOp α)) : LRUState α :=
  ops.foldl stepOp s

/-! ## Prompt optimizer (`PromptOptimizer`, lines 117–271) -/

/-- Models `optimization_patterns['redundant_phrases']`. -/
def redundant_phrases : List (List Char) :=
  ["please", "could you", "would you mind", "if possible",
   "I need you to", "can you help me", "I would like"].map String.toList

/-- Models `optimization_patterns['filler_words']`. -/
def filler_words : List (List Char) :=
  ["actually", "basically", "essentially", "literally",
   "obviously", "definitely", "certainly"].map String.toList

/-- Models `optimization_patterns['verbose_patterns']`. -/
def verbose_patterns : List (List Char × List Char) :=
  [("in order to", "to"), ("due to the fact that", "because"),
   ("at this point in time", "now"), ("in the event that", "if"),
   ("for the purpose of", "for")].map (fun p => (p.1.toList, p.2.toList))

/-- Models `PromptOptimizer._optimize_devops_prompt`. -/
def optimize_devops_prompt (prompt : List Char) : List Char :=
  let prompt :=
    if containsSub "analyze".toList (lowerC prompt)
        && !containsSub "json".toList (lowerC prompt) then
      prompt ++ ("\n\nProvide response in structured JSON format with clear "
        ++ "sections for analysis, recommendations, and implementation steps.").toList
    else prompt
  if containsSub "recommend".toList (lowerC prompt) then
    prompt ++ ("\n\nFocus on actionable, production-ready solutions with "
      ++ "specific commands and configurations.").toList
  else prompt

/-- Models `PromptOptimizer._optimize_sre_prompt`. -/
def optimize_sre_prompt (prompt : List Char) : List Char :=
  let prompt :=
    if containsSub "incident".toList (lowerC prompt)
        || containsSub "outage".toList (lowerC prompt) then
      prompt ++ ("\n\nInclude SLO impact analysis and error budget "
        ++ "implications in your response.").toList
    else prompt
  if containsSub "performance".toList (lowerC prompt) then
    prompt ++ ("\n\nProvide quantitative metrics and measurable targets "
      ++ "in your analysis.").toList
  else prompt

/-- Models `PromptOptimizer._optimize_cloud_prompt`. -/
def optimize_cloud_prompt (prompt : List Char) : List Char :=
  let prompt :=
    if containsSub "architecture".toList (lowerC prompt)
        || containsSub "design".toList (lowerC prompt) then
      prompt ++ ("\n\nInclude cost implications and optimization "
        ++ "opportunities in your recommendations.").toList
    else prompt
  if containsSub "migration".toList (lowerC prompt)
      || containsSub "deployment".toList (lowerC prompt) then
    prompt ++ "\n\nAddress security, compliance, and governance considerations.".toList
  else prompt

/-- Models `PromptOptimizer._optimize_platform_prompt`. -/
def optimize_platform_prompt (prompt : List Char) : List Char :=
  let prompt :=
    if containsSub "platform".toList (lowerC prompt)
        || containsSub "developer".toList (lowerC prompt) then
      prompt ++ ("\n\nPrioritize developer experience and productivity "
        ++ "in your recommendations.").toList
    else prompt
  if containsSub "tool".toList (lowerC prompt)
      || containsSub "service".toList (lowerC prompt) then
    prompt ++ "\n\nFocus on self-service capabilities and automation opportunities.".toList
  else prompt

/-- The metrics dictionary built by `optimize_prompt` (lines 196–203).
`compression_ratio = 1 - optimized/original` is kept as the exact rational
`ratio_num / ratio_den`; `optimization_time` (wall-clock elapsed) is 0 in
the model. -/
structure PromptMetrics where
  original_length : Nat
  optimized_length : Nat
  ratio_num : Int
  ratio_den : Nat
  optimization_time : ℚ
  optimizations_applied : List (List Char)
  domain : List Char
deriving DecidableEq, Repr

/-- The cached value: `{'optimized_prompt': ..., 'metrics': ...}`. -/
abbrev PromptVal := List Char × PromptMetrics

/-- State of a `PromptOptimizer` (its wrapping LRU cache; the
`performance_history` deque is not referenced by any claim and is omitted). -/
structure PromptOptimizerState where
  optimization_cache : LRUState PromptVal
deriving Repr

/-- Models `PromptOptimizer.__init__`. -/
def PromptOptimizer.init : PromptOptimizerState :=
  ⟨LRUCache.init PromptVal 500 7200⟩

/-- Models `PromptOptimizer.optimize_prompt(prompt, domain)` at instant `now`.
The MD5 cache key is modelled by its pre-image `f"{prompt}:{domain}"`.
Raises `ZeroDivisionError` (after all rewriting, where the code divides by
`original_length`) when the prompt is empty; the surrounding cache-get
mutation is kept, matching Python's partially-executed state. -/
def optimize_prompt (now : Nat) (prompt domain : List Char)
    (st : PromptOptimizerState) :
    Except PyErr PromptVal × PromptOptimizerState :=
  let cache_key := prompt ++ ":".toList ++ domain
  match LRUCache.get now cache_key st.optimization_cache with
  | (some cached, c1) => (.ok cached, ⟨c1⟩)
  | (none, c1) =>
    let original_length := prompt.length
    let step1 := redundant_phrases.foldl
      (fun (acc : List Char × List (List Char)) phrase =>
        if containsSub phrase (lowerC acc.1) then
          (replaceAll phrase [] acc.1,
           acc.2 ++ [("removed_redundant: ".toList ++ phrase)])
        else acc) (prompt, [])
    let step2 := filler_words.foldl
      (fun (acc : List Char × List (List Char)) word =>
        let pattern := ' ' :: word ++ [' ']
        if containsSub pattern (lowerC acc.1) then
          (replaceAll pattern [' '] acc.1,
           acc.2 ++ [("removed_filler: ".toList ++ word)])
        else acc) step1
    let step3 := verbose_patterns.foldl
      (fun (acc : List Char × List (List Char)) vp =>
        if containsSub vp.1 (lowerC acc.1) then
          (replaceAll vp.1 vp.2 acc.1,
           acc.2 ++ [("simplified: ".toList ++ vp.1 ++ " -> ".toList ++ vp.2)])
        else acc) step2
    let step4 :=
      if domain = "devops".toList then
        (optimize_devops_prompt step3.1,
         step3.2 ++ ["applied_devops_optimizations".toList])
      else if domain = "sre".toList then
        (optimize_sre_prompt step3.1,
         step3.2 ++ ["applied_sre_optimizations".toList])
      else if domain = "cloud".toList then
        (optimize_cloud_prompt step3.1,
         step3.2 ++ ["applied_cloud_optimizations".toList])
      else if domain = "platform".toList then
        (optimize_platform_prompt step3.1,
         step3.2 ++ ["applied_platform_optimizations".toList])
      else step3
    let optimized := joinWith [' '] (splitWs step4.1)
    if original_length = 0 then
      (.error .zeroDivision, ⟨c1⟩)
    else
      let metrics : PromptMetrics :=
        { original_length := original_length,
          optimized_length := optimized.length,
          ratio_num := (original_length : Int) - (optimized.length : Int),
          ratio_den := original_length,
          optimization_time := 0,
          optimizations_applied := step4.2,
          domain := domain }
      match LRUCache.put now cache_key (optimized, metrics) c1 with
      | .ok c2 => (.ok (optimized, metrics), ⟨c2⟩)
      | .error e => (.error e, ⟨c1⟩)

/-! ## Context compressor (`ContextCompressor`, lines 356–499) -/

/-- Models the `important_indicators` list of `_extract_key_phrases`. -/
def important_indicators : List (List Char) :=
  ["error", "critical", "high", "urgent", "failed", "down",
   "performance", "latency", "throughput", "availability",
   "security", "vulnerability", "breach", "compliance",
   "cost", "optimization", "scaling", "capacity"].map String.toList

/-- Models `ContextCompressor._extract_key_phrases`. -/
def extract_key_phrases (text : List Char) : List (List Char) :=
  let sentences := splitOnChar '.' text
  let key_phrases := sentences.foldl
    (fun (acc : List (List Char)) sentence =>
      let s := stripWs sentence
      if important_indicators.any (fun ind => containsSub ind (lowerC s)) then
        if s.length < 200 then acc ++ [s] else acc
      else acc) []
  key_phrases.take 15

/-- The `structured` dictionary of `_extract_structured_info` (its four
keys, in insertion order). -/
structure StructuredInfo where
  services : List (List Char)
  metrics : List (List Char)
  errors : List (List Char)
  recommendations : List (List Char)
deriving DecidableEq, Repr

/-- Resource keywords classifying a line as a metric line. -/
def metric_keywords : List (List Char) :=
  ["cpu", "memory", "disk", "network", "latency"].map String.toList

/-- Error keywords classifying a line as an error line. -/
def error_keywords : List (List Char) :=
  ["error", "failed", "exception", "timeout"].map String.toList

/-- Models `ContextCompressor._extract_structured_info`. The final
`list(set(...))[:5]` deduplication iterates a Python set, whose order is
unspecified (hash-dependent); the model uses first-occurrence order
(`List.eraseDups`), which no claim distinguishes. -/
def extract_structured_info (text : List Char) : StructuredInfo :=
  let lines := splitOnChar '\n' text
  let si := lines.foldl
    (fun (si : StructuredInfo) rawLine =>
      let line := stripWs rawLine
      if line.isEmpty then si
      else
        let si :=
          if containsSub "service".toList (lowerC line) then
            { si with services := si.services ++
                ((splitWs line).filter (fun w =>
                  containsSub "service".toList (lowerC w) && w.length > 7)) }
          else si
        let si :=
          if metric_keywords.any (fun m => containsSub m (lowerC line)) then
            { si with metrics := si.metrics ++ [line] }
          else si
        let si :=
          if error_keywords.any (fun e => containsSub e (lowerC line)) then
            { si with errors := si.errors ++ [line] }
          else si
        if line.head? = some '-' || line.head? = some '*'
            || containsSub "recommend".toList (lowerC line) then
          { si with recommendations := si.recommendations ++ [line] }
        else si)
    ⟨[], [], [], []⟩
  { services := si.services.eraseDups.take 5,
    metrics := si.metrics.eraseDups.take 5,
    errors := si.errors.eraseDups.take 5,
    recommendations := si.recommendations.eraseDups.take 5 }

/-- Models `ContextCompressor._aggressive_compress` (its `target_reduction`
argument is unused by the source body). -/
def aggressive_compress (text : List Char) : List Char :=
  let lines := splitOnChar '\n' text
  let compressed_lines := lines.foldl
    (fun (acc : List (List Char)) rawLine =>
      let line := replaceAll "in order to".toList "to".toList rawLine
      let line := replaceAll "due to the fact that".toList "because".toList line
      let line := replaceAll "at this point in time".toList "now".toList line
      if (stripWs line).length > 10 then acc ++ [line] else acc) []
  joinWith "\n".toList compressed_lines

/-- The metrics dictionary built by `compress_context` (lines 404–412).
The achieved reduction `1 - final/original` is kept as the exact rational
`reduction_num / original_length`; the requested target is the code's only
used value, `0.3`. `structured_info_categories` is `len(structured_info)`,
the number of keys of the dictionary, which is always 4. -/
structure CompressMetrics where
  original_length : Nat
  compressed_length : Nat
  reduction_num : Int
  compression_time : ℚ
  key_phrases_count : Nat
  structured_info_categories : Nat
deriving DecidableEq, Repr

/-- The cached value: `{'compressed': ..., 'metrics': ...}`. -/
abbrev CompressVal := List Char × CompressMetrics

/-- State of a `ContextCompressor` (its wrapping LRU cache). -/
structure ContextCompressorState where
  compression_cache : LRUState CompressVal
deriving Repr

/-- Models `ContextCompressor.__init__`. -/
def ContextCompressor.init : ContextCompressorState :=
  ⟨LRUCache.init CompressVal 200 1800⟩

/-- Models `ContextCompressor.compress_context(context)` at instant `now`,
with the default `target_reduction = 0.3` (the only value the code ever
passes). The MD5 cache key is modelled by its pre-image
`f"{context}:{target_reduction}"`. The dictionary truth test
`if structured_info:` is on a dict that always has four keys, hence always
true, so the "Key Information:" header is emitted unconditionally. The
float comparison `current_reduction < target_reduction`, i.e.
`1 - c/o < 3/10`, is the exact rational test `10*(o - c) < 3*o`; the
division raises `ZeroDivisionError` when the context is empty. -/
def compress_context (now : Nat) (context : List Char)
    (st : ContextCompressorState) :
    Except PyErr CompressVal × ContextCompressorState :=
  let cache_key := context ++ ":0.3".toList
  match LRUCache.get now cache_key st.compression_cache with
  | (some cached, c1) => (.ok cached, ⟨c1⟩)
  | (none, c1) =>
    let original_length := context.length
    let key_phrases := extract_key_phrases context
    let si := extract_structured_info context
    let parts := ["Key Information:".toList]
    let parts := parts ++
      (if si.services ≠ [] then
        ["- services: ".toList ++ joinWith ", ".toList (si.services.take 3)] else [])
    let parts := parts ++
      (if si.metrics ≠ [] then
        ["- metrics: ".toList ++ joinWith ", ".toList (si.metrics.take 3)] else [])
    let parts := parts ++
      (if si.errors ≠ [] then
        ["- errors: ".toList ++ joinWith ", ".toList (si.errors.take 3)] else [])
    let parts := parts ++
      (if si.recommendations ≠ [] then
        ["- recommendations: ".toList ++ joinWith ", ".toList (si.recommendations.take 3)]
       else [])
    let parts := parts ++
      (if key_phrases ≠ [] then
        "\nImportant Details:".toList ::
          (key_phrases.take 10).map (fun p => "- ".toList ++ p)
       else [])
    let compressed := joinWith "\n".toList parts
    if original_length = 0 then
      (.error .zeroDivision, ⟨c1⟩)
    else
      let compressed :=
        if 10 * ((original_length : Int) - (compressed.length : Int))
            < 3 * (original_length : Int) then
          aggressive_compress compressed
        else compressed
      let metrics : CompressMetrics :=
        { original_length := original_length,
          compressed_length := compressed.length,
          reduction_num := (original_length : Int) - (compressed.length : Int),
          compression_time := 0,
          key_phrases_count := key_phrases.length,
          structured_info_categories := 4 }
      match LRUCache.put now cache_key (compressed, metrics) c1 with
      | .ok c2 => (.ok (compressed, metrics), ⟨c2⟩)
      | .error e => (.error e, ⟨c1⟩)

/-! ## Performance monitor (`PerformanceMonitor`, lines 501–595) -/

/-- Models the `PerformanceMetrics` dataclass (durations and rates carried
as exact rationals). -/
structure PerfMetric where
  operation : List Char
  duration : ℚ
  memory_usage : Nat
  cpu_usage : ℚ
  cache_hit : Bool
  timestamp : Nat
  success : Bool
  error_message : Option (List Char)
deriving DecidableEq, Repr

/-- Models `PerformanceMonitor.record_metric`: append to the
`deque(maxlen=10000)` history, silently discarding the oldest entry once
full. `_check_alerts` only emits log warnings and is omitted. -/
def record_metric (m : PerfMetric) (history : List PerfMetric) : List PerfMetric :=
  let h := history ++ [m]
  if h.length > 10000 then h.drop (h.length - 10000) else h

/-- Models `PerformanceMonitor._percentile`. The Python index
`int((percentile / 100) * len(sorted_data))` is the exact
`floor (p * n / 100)`: for the integer percentiles the code uses (95, 99)
and any realistic `n`, `p*n/100` is a rational with denominator at most
100, so its distance to any integer it is not equal to is at least `1/100`,
far above double-rounding error, and when `p*n/100` is an integer the float
product rounds to exactly that integer. -/
def percentile (data : List ℚ) (p : Nat) : ℚ :=
  if data.isEmpty then 0
  else
    let sorted_data := data.insertionSort (· ≤ ·)
    let index := p * data.length / 100
    sorted_data.getD (min index (data.length - 1)) 0

/-- Per-operation entry of the summary's `operations` breakdown. -/
structure OpStats where
  count : Nat
  avg_duration : ℚ
  success_rate : ℚ
deriving DecidableEq, Repr

/-- Models `PerformanceMonitor._get_operation_breakdown`; the
`defaultdict` groups in first-occurrence order of the `operation` tag. -/
def operation_breakdown (ms : List PerfMetric) : List (List Char × OpStats) :=
  let ops := (ms.map (fun m => m.operation)).eraseDups
  ops.map (fun o =>
    let group := ms.filter (fun m => m.operation = o)
    let durations := group.map (fun m => m.duration)
    (o, { count := group.length,
          avg_duration := durations.sum / (durations.length : ℚ),
          success_rate := ((group.filter (fun m => m.success)).length : ℚ)
            / (group.length : ℚ) }))

/-- The summary dictionary of `get_performance_summary` on the non-empty
branch. -/
structure PerfSummary where
  time_window : Nat
  total_requests : Nat
  successful_requests : Nat
  success_rate : ℚ
  cache_hit_rate : ℚ
  avg_response_time : ℚ
  min_response_time : ℚ
  max_response_time : ℚ
  p95_response_time : ℚ
  p99_response_time : ℚ
  operations : List (List Char × OpStats)
deriving DecidableEq, Repr

/-- Minimum of a duration list (`min(response_times)`; only evaluated on
non-empty lists). -/
def min_list : List ℚ → ℚ
  | [] => 0
  | h :: t => t.foldl min h

/-- Maximum of a duration list (`max(response_times)`). -/
def max_list : List ℚ → ℚ
  | [] => 0
  | h :: t => t.foldl max h

/-- Models `PerformanceMonitor.get_performance_summary(time_window)` at
instant `now`. `none` models the `{'error': 'No metrics available for the
specified time window'}` result. The Python cutoff `now - time_window` can
be negative where the Nat model truncates to 0; both let every metric
(timestamp ≥ 0) through, so the filter agrees. -/
def get_performance_summary (now time_window : Nat)
    (history : List PerfMetric) : Option PerfSummary :=
  let recent := history.filter (fun m => m.timestamp ≥ now - time_window)
  if recent.isEmpty then none
  else
    let response_times := recent.map (fun m => m.duration)
    let total_requests := recent.length
    let successful := (recent.filter (fun m => m.success)).length
    let cache_hits := (recent.filter (fun m => m.cache_hit)).length
    some
      { time_window := time_window,
        total_requests := total_requests,
        successful_requests := successful,
        success_rate := (successful : ℚ) / (total_requests : ℚ),
        cache_hit_rate := (cache_hits : ℚ) / (total_requests : ℚ),
        avg_response_time := response_times.sum / (response_times.length : ℚ),
        min_response_time := min_list response_times,
        max_response_time := max_list response_times,
        p95_response_time := percentile response_times 95,
        p99_response_time := percentile response_times 99,
        operations := operation_breakdown recent }

/-! ## Optimization pipeline (`CursorAIOptimizer.optimize_request`, lines 597–722)

The `try` body runs the four stages in order — prompt optimization,
conditional context compression, cache-key derivation, global-cache
lookup — and the `except` handler turns any exception into a fallback
result, so `optimize_request` is modelled as a total function. Besides the
real exceptions of the modelled stages (`ZeroDivisionError` on an empty
prompt, `IndexError` from `deque.popleft`), an `Inject` record lets a fault
be injected at each stage, modelling the spec's "injected failure". The
handler builds the fallback from the Python local `context`, which is
reassigned to the compressed text once compression succeeds (line 634). -/

/-- Fault-injection record: one flag per pipeline stage. -/
structure Inject where
  fail_prompt_stage : Bool
  fail_compress_stage : Bool
  fail_key_stage : Bool
  fail_lookup_stage : Bool
deriving DecidableEq, Repr

/-- No injected faults: the plain behaviour of the code. -/
def Inject.noFault : Inject := ⟨false, false, false, false⟩

/-- The `optimized_request` payload (lines 664–669 / 713–718). -/
structure OptimizedRequest where
  prompt : List Char
  context : List Char
  domain : List Char
  cache_key : Option (List Char)
deriving DecidableEq, Repr

/-- The dictionary returned by `optimize_request`. `optimizations_applied`,
`error`, `prompt_metrics` and `compression_metrics` model the
correspondingly-named entries of its `optimization_results` sub-dictionary
(the fallback's `optimization_results` holds only `error`, so there the
list is empty and the metric fields are `none`); `cache_hit` is the
top-level flag. `processing_time` is wall-clock elapsed, 0 in the model. -/
structure PipelineResult where
  response : Option (List Char)
  optimized_request : Option OptimizedRequest
  optimizations_applied : List (List Char)
  cache_hit : Bool
  error : Option (List Char)
  prompt_metrics : Option PromptMetrics
  compression_metrics : Option CompressMetrics
  processing_time : ℚ
deriving DecidableEq, Repr

/-- State of a `CursorAIOptimizer`: its sub-component caches and the
performance monitor's history. (`ResponseStreamer` and `ParallelProcessor`
hold no state a claim references.) -/
structure OptimizerState where
  prompt_optimizer : PromptOptimizerState
  context_compressor : ContextCompressorState
  global_cache : LRUState (List Char)
  metrics_history : List PerfMetric
deriving Repr

/-- Models `CursorAIOptimizer.__init__`. -/
def CursorAIOptimizer.init : OptimizerState :=
  { prompt_optimizer := PromptOptimizer.init,
    context_compressor := ContextCompressor.init,
    global_cache := LRUCache.init (List Char) 2000 7200,
    metrics_history := [] }

/-- The failure metric recorded by the `except` handler (lines 700–709). -/
def failure_metric (now : Nat) (e : PyErr) : PerfMetric :=
  { operation := "optimize_request".toList, duration := 0, memory_usage := 0,
    cpu_usage := 0, cache_hit := false, timestamp := now, success := false,
    error_message := some e.msg }

/-- The success metric recorded on the two non-error paths
(lines 646–654 and 679–687). -/
def pipeline_metric (now : Nat) (hit : Bool) : PerfMetric :=
  { operation := "optimize_request".toList, duration := 0, memory_usage := 0,
    cpu_usage := 0, cache_hit := hit, timestamp := now, success := true,
    error_message := none }

/-- The `except` handler (lines 696–722): record a failure metric and
return the fallback result built from the locals `prompt` and `context` at
the moment the exception fired. -/
def fallback_result (now : Nat) (prompt context domain : List Char)
    (e : PyErr) (st : OptimizerState) : PipelineResult × OptimizerState :=
  ({ response := none,
     optimized_request := some
       { prompt := prompt, context := context, domain := domain, cache_key := none },
     optimizations_applied := [],
     cache_hit := false,
     error := some e.msg,
     prompt_metrics := none,
     compression_metrics := none,
     processing_time := 0 },
   { st with metrics_history := record_metric (failure_metric now e) st.metrics_history })

/-- Models lines 636–694 of `optimize_request`: cache-key derivation and
global-cache lookup. Its `context` parameter is the Python local `context`
at this point, i.e. the compressed text when compression ran (`cm` holds
the compression metrics in that case). The global cache key is modelled by
the MD5 pre-image `f"{optimized_prompt}:{context}:{domain}"`. -/
def optimize_request_tail (now : Nat) (prompt context domain : List Char)
    (optimized_prompt : List Char) (pm : PromptMetrics)
    (cm : Option CompressMetrics) (inj : Inject) (st : OptimizerState) :
    PipelineResult × OptimizerState :=
  let tags := "prompt_optimization".toList ::
    (if cm.isSome then ["context_compression".toList] else [])
  if inj.fail_key_stage then
    fallback_result now prompt context domain (.injected "cache-key stage") st
  else
    let cache_key := optimized_prompt ++ ":".toList ++ context ++ ":".toList ++ domain
    if inj.fail_lookup_stage then
      fallback_result now prompt context domain (.injected "cache lookup stage") st
    else
      match LRUCache.get now cache_key st.global_cache with
      | (some cached_response, gc') =>
        ({ response := some cached_response,
           optimized_request := none,
           optimizations_applied := tags ++ ["cache_hit".toList],
           cache_hit := true,
           error := none,
           prompt_metrics := some pm,
           compression_metrics := cm,
           processing_time := 0 },
         { st with global_cache := gc',
                   metrics_history :=
                     record_metric (pipeline_metric now true) st.metrics_history })
      | (none, gc') =>
        ({ response := none,
           optimized_request := some
             { prompt := optimized_prompt, context := context, domain := domain,
               cache_key := some cache_key },
           optimizations_applied := tags,
           cache_hit := false,
           error := none,
           prompt_metrics := some pm,
           compression_metrics := cm,
           processing_time := 0 },
         { st with global_cache := gc',
                   metrics_history :=
                     record_metric (pipeline_metric now false) st.metrics_history })

/-- Models `CursorAIOptimizer.optimize_request(prompt, context, domain,
enable_compression=...)` at instant `now` under fault injection `inj`
(`enable_streaming` is accepted by the source and never used). Total: every
exception is caught by the handler (`fallback_result`). -/
def optimize_request (now : Nat) (prompt context domain : List Char)
    (enable_compression : Bool) (inj : Inject) (st : OptimizerState) :
    PipelineResult × OptimizerState :=
  if inj.fail_prompt_stage then
    fallback_result now prompt context domain (.injected "prompt stage") st
  else
    match optimize_prompt now prompt domain st.prompt_optimizer with
    | (.error e, po') =>
      fallback_result now prompt context domain e { st with prompt_optimizer := po' }
    | (.ok (optimized_prompt, pm), po') =>
      let st := { st with prompt_optimizer := po' }
      if enable_compression && decide (context.length > 5000) then
        if inj.fail_compress_stage then
          fallback_result now prompt context domain (.injected "compression stage") st
        else
          match compress_context now context st.context_compressor with
          | (.error e, cc') =>
            fallback_result now prompt context domain e
              { st with context_compressor := cc' }
          | (.ok (compressed_context, cm), cc') =>
            optimize_request_tail now prompt compressed_context domain
              optimized_prompt pm (some cm) inj
              { st with context_compressor := cc' }
      else
        optimize_request_tail now prompt context domain optimized_prompt pm
          none inj st

/-- Holds exactly when, in the given call, the context-compression stage
runs to completion: no fault is injected at the prompt stage and
`optimize_prompt` returns normally, the compression gate
`enable_compression and len(context) > 5000` is open, no fault is injected
at the compression stage, and `compress_context` returns normally. This is
precisely the condition under which the Python local `context` has been
reassigned to the compressed text (line 634) by the time a later failure
can reach the `except` handler. -/
def compressionSucceeded (now : Nat) (prompt context domain : List Char)
    (ec : Bool) (inj : Inject) (st : OptimizerState) : Prop :=
  inj.fail_prompt_stage = false ∧
  (∃ v po, optimize_prompt now prompt domain st.prompt_optimizer = (.ok v, po)) ∧
  (ec && decide (context.length > 5000)) = true ∧
  inj.fail_compress_stage = false ∧
  (∃ v cc, compress_context now context st.context_compressor = (.ok v, cc))

/-! ## Concrete runs used by individual claims -/

/-- First `optimize_prompt` call of the spec's worked example
(claim about `Optimize("Could you please analyze my pipeline", "devops")`). -/
def c3_first : Except PyErr PromptVal × PromptOptimizerState :=
  optimize_prompt 0 "Could you please analyze my pipeline".toList "devops".toList
    PromptOptimizer.init

/-- Second, identical `optimize_prompt` call, one second later (well within
the 7200 s TTL), against the state left by the first. -/
def c3_second : Except PyErr PromptVal × PromptOptimizerState :=
  optimize_prompt 1 "Could you please analyze my pipeline".toList "devops".toList
    c3_first.2

/-- The exact text the code produces for the worked example: "please" is
replaced (it occurs in lower case), "Could you" survives (`str.replace` is
case-sensitive while the detection lowercases), the JSON instruction is
appended, and — because that instruction contains "recommendations" — the
actionable-solutions instruction is appended as well; whitespace is then
collapsed. -/
def c3_expected : List Char :=
  ("Could you analyze my pipeline Provide response in structured JSON format "
   ++ "with clear sections for analysis, recommendations, and implementation steps. "
   ++ "Focus on actionable, production-ready solutions with specific commands "
   ++ "and configurations.").toList

/-- A history of 100 recorded metrics with durations 1..100 seconds, all at
timestamp 100 (inside any window). -/
def c4_history : List PerfMetric :=
  (List.range 100).foldl
    (fun h i =>
      record_metric
        { operation := "op".toList, duration := ((i + 1 : Nat) : ℚ), memory_usage := 0,
          cpu_usage := 0, cache_hit := false, timestamp := 100, success := true,
          error_message := none } h) []

/-- A 5001-character context: longer than the 5000-byte compression
threshold, containing no sentence separator, newline, or indicator keyword,
so the compressor reduces it to the bare "Key Information:" header. -/
def zContext : List Char := List.replicate 5001 'z'

/-- Pipeline run for the fault-injection counterexample: a failure injected
at the cache-key stage, after compression of the long context succeeded. -/
def c1_fault_run : PipelineResult :=
  (optimize_request 0 "p".toList zContext "devops".toList true
    ⟨false, false, true, false⟩ CursorAIOptimizer.init).1

/-! ## Auxiliary definitions and lemmas: association lists -/

/-- Key list of an association list (Python `d.keys()`, insertion order). -/
def keysA {β : Type} : List (List Char × β) → List (List Char)
  | [] => []
  | (k, _) :: t => k :: keysA t

theorem length_keysA {β : Type} (l : List (List Char × β)) :
    (keysA l).length = l.length := by
  induction l with
  | nil => rfl
  | cons p t ih => obtain ⟨k₀, v₀⟩ := p; simp [keysA, ih]

theorem lookupA_isSome_iff {β : Type} (l : List (List Char × β)) (k : List Char) :
    (lookupA l k).isSome = true ↔ k ∈ keysA l := by
  induction l with
  | nil => simp [lookupA, keysA]
  | cons p t ih =>
    obtain ⟨k₀, v₀⟩ := p
    by_cases hk : k = k₀ <;> simp [lookupA, keysA, hk, ih]

theorem lookupA_insertA_self {β : Type} (l : List (List Char × β)) (k : List Char)
    (v : β) : lookupA (insertA l k v) k = some v := by
  induction l with
  | nil => simp [insertA, lookupA]
  | cons p t ih =>
    obtain ⟨k₀, v₀⟩ := p
    by_cases hk : k = k₀ <;> simp [insertA, lookupA, hk, ih]

theorem lookupA_insertA_ne {β : Type} (l : List (List Char × β)) (k k' : List Char)
    (v : β) (h : k' ≠ k) : lookupA (insertA l k v) k' = lookupA l k' := by
  induction l with
  | nil => simp [insertA, lookupA, h]
  | cons p t ih =>
    obtain ⟨k₀, v₀⟩ := p
    by_cases hk : k = k₀
    · subst hk; simp [insertA, lookupA, h]
    · by_cases hk' : k' = k₀ <;> simp [insertA, lookupA, hk, hk', ih]

theorem length_insertA {β : Type} (l : List (List Char × β)) (k : List Char) (v : β) :
    (insertA l k v).length =
      if (lookupA l k).isSome then l.length else l.length + 1 := by
  induction l with
  | nil => simp [insertA, lookupA]
  | cons p t ih =>
    obtain ⟨k₀, v₀⟩ := p
    by_cases hk : k = k₀
    · simp [insertA, lookupA, hk]
    · simp only [insertA, if_neg hk, lookupA, List.length_cons, ih]
      by_cases hs : (lookupA t k).isSome = true <;> simp [hk, hs]

theorem lookupA_eraseA_ne {β : Type} (l : List (List Char × β)) (k k' : List Char)
    (h : k' ≠ k) : lookupA (eraseA l k) k' = lookupA l k' := by
  induction l with
  | nil => simp [eraseA]
  | cons p t ih =>
    obtain ⟨k₀, v₀⟩ := p
    by_cases hk : k = k₀
    · subst hk; simp [eraseA, lookupA, h]
    · by_cases hk' : k' = k₀ <;> simp [eraseA, lookupA, hk, hk', ih]

theorem keysA_eraseA_sublist {β : Type} (l : List (List Char × β)) (k : List Char) :
    (keysA (eraseA l k)).Sublist (keysA l) := by
  induction l with
  | nil => simp [eraseA]
  | cons p t ih =>
    obtain ⟨k₀, v₀⟩ := p
    by_cases hk : k = k₀
    · simp [eraseA, hk, keysA, List.sublist_cons_self]
    · simpa [eraseA, hk, keysA] using ih.cons₂ k₀

theorem keysNodup_eraseA {β : Type} (l : List (List Char × β)) (k : List Char)
    (h : (keysA l).Nodup) : (keysA (eraseA l k)).Nodup :=
  (keysA_eraseA_sublist l k).nodup h

theorem lookupA_eq_none {β : Type} (l : List (List Char × β)) (k : List Char)
    (h : k ∉ keysA l) : lookupA l k = none := by
  induction l with
  | nil => simp [lookupA]
  | cons p t ih =>
    obtain ⟨k₀, v₀⟩ := p
    simp only [keysA, List.mem_cons, not_or] at h
    simp [lookupA, h.1, ih h.2]

theorem not_mem_keysA_eraseA {β : Type} (l : List (List Char × β)) (k : List Char)
    (h : (keysA l).Nodup) : k ∉ keysA (eraseA l k) := by
  induction l with
  | nil => simp [eraseA, keysA]
  | cons p t ih =>
    obtain ⟨k₀, v₀⟩ := p
    simp only [keysA, List.nodup_cons] at h
    by_cases hk : k = k₀
    · subst hk; simpa [eraseA] using h.1
    · simp only [eraseA, if_neg hk, keysA, List.mem_cons]
      rintro (rfl | hm)
      · exact hk rfl
      · exact ih h.2 hm

theorem lookupA_eraseA_self {β : Type} (l : List (List Char × β)) (k : List Char)
    (h : (keysA l).Nodup) : lookupA (eraseA l k) k = none :=
  lookupA_eq_none _ _ (not_mem_keysA_eraseA l k h)

theorem lookupA_isSome_length_pos {β : Type} (l : List (List Char × β))
    (k : List Char) (h : (lookupA l k).isSome = true) : 0 < l.length := by
  cases l with
  | nil => simp [lookupA] at h
  | cons p t => simp

theorem length_eraseA {β : Type} (l : List (List Char × β)) (k : List Char) :
    (eraseA l k).length =
      if (lookupA l k).isSome then l.length - 1 else l.length := by
  induction l with
  | nil => simp [eraseA, lookupA]
  | cons p t ih =>
    obtain ⟨k₀, v₀⟩ := p
    by_cases hk : k = k₀
    · simp [eraseA, lookupA, hk]
    · simp only [eraseA, if_neg hk, lookupA, List.length_cons, ih]
      by_cases hs : (lookupA t k).isSome = true
      · have hpos : 0 < t.length := lookupA_isSome_length_pos t k hs
        simp [hk, hs]
        omega
      · simp [hk, hs]

theorem mem_keysA_insertA {β : Type} (l : List (List Char × β)) (k : List Char)
    (v : β) (x : List Char) : x ∈ keysA (insertA l k v) ↔ x ∈ keysA l ∨ x = k := by
  induction l with
  | nil => simp [insertA, keysA, Or.comm]
  | cons p t ih =>
    obtain ⟨k₀, v₀⟩ := p
    by_cases hk : k = k₀
    · subst hk; simp [insertA, keysA]; tauto
    · simp [insertA, hk, keysA, ih]; tauto

theorem keysNodup_insertA {β : Type} (l : List (List Char × β)) (k : List Char)
    (v : β) (h : (keysA l).Nodup) : (keysA (insertA l k v)).Nodup := by
  induction l with
  | nil => simp [insertA, keysA]
  | cons p t ih =>
    obtain ⟨k₀, v₀⟩ := p
    simp only [keysA, List.nodup_cons] at h
    by_cases hk : k = k₀
    · subst hk; simp [insertA, keysA, h.1, h.2]
    · simp only [insertA, if_neg hk, keysA, List.nodup_cons]
      refine ⟨fun hm => ?_, ih h.2⟩
      rcases (mem_keysA_insertA t k v k₀).1 hm with h' | h'
      · exact h.1 h'
      · exact hk h'.symm

/-! ## Auxiliary: the cache well-formedness invariant -/

/-- Well-formedness of a cache state: key-uniqueness of the map, no
duplicate access-order nodes, the mapping and the access-order sequence
hold exactly the same keys, their sizes agree, and the size respects
`maxsize`. This is the state invariant the spec asserts; `put` preserves
it, while an expired `get` does not (see the claims below). -/
def cacheWellFormed {α : Type} (s : LRUState α) : Prop :=
  (keysA s.cache).Nodup ∧
  s.access_order.Nodup ∧
  (∀ k, k ∈ s.access_order ↔ (lookupA s.cache k).isSome = true) ∧
  s.cache.length = s.access_order.length ∧
  s.cache.length ≤ s.maxsize

theorem init_wf {α : Type} (maxsize ttl : Nat) :
    cacheWellFormed (LRUCache.init α maxsize ttl) := by
  refine ⟨?_, ?_, ?_, ?_, ?_⟩ <;> simp [LRUCache.init, keysA, lookupA]

theorem put_preserves_wf {α : Type} (s : LRUState α) (now : Nat) (k : List Char)
    (v : α) (h : cacheWellFormed s) :
    cacheWellFormed (stepOp s (.put now k v)) := by
  obtain ⟨hkeys, hord, hiff, hlen, hmax⟩ := h
  simp only [stepOp]
  by_cases hmem : (lookupA s.cache k).isSome = true
  · have hkin : k ∈ s.access_order := (hiff k).2 hmem
    simp only [LRUCache.put, if_pos hmem]
    refine ⟨keysNodup_insertA _ _ _ hkeys, ?_, ?_, ?_, ?_⟩
    · refine List.Nodup.append (hord.erase k) (List.nodup_singleton k) ?_
      intro x hx hx'
      simp only [List.mem_singleton] at hx'
      subst hx'
      exact ((List.Nodup.mem_erase_iff hord).1 hx).1 rfl
    · intro k'
      by_cases hk' : k' = k
      · subst hk'
        simp [lookupA_insertA_self]
      · simp only [List.mem_append, List.mem_singleton, hk', or_false,
          (List.Nodup.mem_erase_iff hord), lookupA_insertA_ne _ _ _ _ hk']
        constructor
        · rintro ⟨-, hm⟩; exact (hiff k').1 hm
        · intro hm; exact ⟨hk', (hiff k').2 hm⟩
    · have h1 : 0 < s.access_order.length := List.length_pos_of_mem hkin
      rw [length_insertA]
      simp only [hmem, if_true, List.length_append, List.length_cons,
        List.length_nil, List.length_erase_of_mem hkin]
      rw [hlen]
      omega
    · simpa [length_insertA, hmem] using hmax
  · have hkout : k ∉ s.access_order := fun hm => hmem ((hiff k).1 hm)
    have hnone : lookupA s.cache k = none := by
      cases hl : lookupA s.cache k with
      | none => rfl
      | some w => rw [hl] at hmem; simp at hmem
    simp only [LRUCache.put, if_neg hmem]
    by_cases hcap : s.cache.length ≥ s.maxsize
    · simp only [if_pos hcap]
      cases horder : s.access_order with
      | nil => exact ⟨hkeys, hord, hiff, hlen, hmax⟩
      | cons oldest rest =>
        have holdin : oldest ∈ s.access_order := by simp [horder]
        have holdsome : (lookupA s.cache oldest).isSome = true := (hiff oldest).1 holdin
        have hko : k ≠ oldest := fun hk => hkout (hk ▸ holdin)
        have hordc : rest.Nodup ∧ oldest ∉ rest := by
          rw [horder] at hord
          exact ⟨hord.of_cons, (List.nodup_cons.1 hord).1⟩
        have hkrest : k ∉ rest := fun hm => hkout (by simp [horder, hm])
        refine ⟨keysNodup_insertA _ _ _ (keysNodup_eraseA _ _ hkeys), ?_, ?_, ?_, ?_⟩
        · refine List.Nodup.append hordc.1 (List.nodup_singleton k) ?_
          intro x hx hx'
          simp only [List.mem_singleton] at hx'
          exact hkrest (hx' ▸ hx)
        · intro k'
          by_cases hk' : k' = k
          · subst hk'; simp [lookupA_insertA_self]
          · rw [lookupA_insertA_ne _ _ _ _ hk']
            by_cases hko' : k' = oldest
            · subst hko'
              rw [lookupA_eraseA_self _ _ hkeys]
              simp [hordc.2, hk']
            · rw [lookupA_eraseA_ne _ _ _ hko']
              have : k' ∈ s.access_order ↔ k' ∈ rest := by
                simp [horder, hko']
              simp only [List.mem_append, List.mem_singleton, hk', or_false]
              rw [← this, hiff k']
        · have hpos : 0 < s.cache.length := by
            rw [hlen, horder]; simp
          have herase : lookupA (eraseA s.cache oldest) k = none := by
            rw [lookupA_eraseA_ne _ _ _ hko]; exact hnone
          simp only [length_insertA, herase, Option.isSome_none, Bool.false_eq_true,
            if_false, length_eraseA, holdsome, if_true, List.length_append,
            List.length_cons, List.length_nil]
          have : s.access_order.length = rest.length + 1 := by simp [horder]
          simp only [hlen] at this ⊢
          omega
        · have herase : lookupA (eraseA s.cache oldest) k = none := by
            rw [lookupA_eraseA_ne _ _ _ hko]; exact hnone
          have hpos : 0 < s.cache.length := by
            rw [hlen, horder]; simp
          simp only [length_insertA, herase, Option.isSome_none, Bool.false_eq_true,
            if_false, length_eraseA, holdsome, if_true]
          omega
    · simp only [if_neg hcap]
      refine ⟨keysNodup_insertA _ _ _ hkeys, ?_, ?_, ?_, ?_⟩
      · refine List.Nodup.append hord (List.nodup_singleton k) ?_
        intro x hx hx'
        simp only [List.mem_singleton] at hx'
        exact hkout (hx' ▸ hx)
      · intro k'
        by_cases hk' : k' = k
        · subst hk'; simp [lookupA_insertA_self]
        · rw [lookupA_insertA_ne _ _ _ _ hk']
          simp only [List.mem_append, List.mem_singleton, hk', or_false]
          exact hiff k'
      · simp [length_insertA, hnone, hlen]
      · simp only [length_insertA, hnone, Option.isSome_none, Bool.false_eq_true,
          if_false]
        omega

theorem runOps_puts_wf {α : Type} (ops : List (CacheOp α)) (s : LRUState α)
    (hwf : cacheWellFormed s) (h : ∀ op ∈ ops, op.isPut = true) :
    cacheWellFormed (runOps s ops) := by
  induction ops generalizing s with
  | nil => exact hwf
  | cons op rest ih =>
    have hop := h op (by simp)
    cases op with
    | get now key => simp [CacheOp.isPut] at hop
    | clear => simp [CacheOp.isPut] at hop
    | put now key value =>
      exact ih (stepOp s (.put now key value))
        (put_preserves_wf s now key value hwf) (fun o ho => h o (by simp [ho]))

/-! ## Auxiliary lemmas: the compressor on a homogeneous long context

Kernel evaluation cannot walk a 5001-character string, so the behaviour of
`compress_context` on `zContext` is established by induction over the
replicated character instead of by `decide`. -/

theorem containsSub_replicate {needle : List Char} {c : Char}
    (h1 : ¬needle = []) (h2 : ¬needle.head? = some c) (k : Nat) :
    containsSub needle (List.replicate k c) = false := by
  match needle, h1 with
  | a :: rest, _ =>
    have ha : ¬a = c := by simpa using h2
    induction k with
    | zero => simp [containsSub]
    | succ n ih =>
      rw [List.replicate_succ]
      simp only [containsSub, List.isPrefixOf, Bool.or_eq_false_iff]
      exact ⟨by simp [ha], ih⟩

theorem any_containsSub_replicate {inds : List (List Char)} {c : Char}
    (h : ∀ ind ∈ inds, ¬ind = [] ∧ ¬ind.head? = some c) (k : Nat) :
    (inds.any fun ind => containsSub ind (List.replicate k c)) = false := by
  induction inds with
  | nil => simp
  | cons i is ih =>
    simp only [List.any_cons, Bool.or_eq_false_iff]
    obtain ⟨h1, h2⟩ := h i (by simp)
    exact ⟨containsSub_replicate h1 h2 k, ih fun j hj => h j (by simp [hj])⟩

theorem splitOnChar_replicate {sep c : Char} (h : ¬c = sep) (k : Nat) :
    splitOnChar sep (List.replicate k c) = [List.replicate k c] := by
  induction k with
  | zero => rfl
  | succ n ih =>
    rw [List.replicate_succ]
    simp [splitOnChar, h, ih, List.replicate_succ]

theorem dropWhile_replicate_of_neg {p : Char → Bool} {c : Char} (h : p c = false)
    (k : Nat) : List.dropWhile p (List.replicate k c) = List.replicate k c := by
  cases k with
  | zero => rfl
  | succ n => rw [List.replicate_succ]; simp [List.dropWhile_cons, h]

theorem stripWs_replicate {c : Char} (h : isSpaceC c = false) (k : Nat) :
    stripWs (List.replicate k c) = List.replicate k c := by
  simp [stripWs, dropWhile_replicate_of_neg h, List.reverse_replicate]

theorem lowerC_replicate_z (k : Nat) :
    lowerC (List.replicate k 'z') = List.replicate k 'z' := by
  have hz : Char.toLower 'z' = 'z' := by decide
  simp [lowerC, List.map_replicate, hz]

theorem extract_key_phrases_replicate_z (k : Nat) :
    extract_key_phrases (List.replicate k 'z') = [] := by
  unfold extract_key_phrases
  rw [splitOnChar_replicate (by decide) k]
  simp only [List.foldl_cons, List.foldl_nil]
  rw [stripWs_replicate (by decide) k, lowerC_replicate_z k,
    @any_containsSub_replicate important_indicators 'z' (by decide) k]
  simp

theorem eraseDups_nil_eq : (List.eraseDups ([] : List (List Char))) = [] := rfl

theorem extract_structured_info_replicate_z (k : Nat) :
    extract_structured_info (List.replicate k 'z') = ⟨[], [], [], []⟩ := by
  cases k with
  | zero => decide
  | succ n =>
    have hempty : (List.replicate (n + 1) 'z').isEmpty = false := by
      rw [List.replicate_succ]; rfl
    have hhead : (List.replicate (n + 1) 'z').head? = some 'z' := by
      rw [List.replicate_succ]; rfl
    unfold extract_structured_info
    rw [splitOnChar_replicate (by decide) (n + 1)]
    simp only [List.foldl_cons, List.foldl_nil]
    rw [stripWs_replicate (by decide) (n + 1)]
    rw [lowerC_replicate_z (n + 1)]
    simp [hempty, hhead, eraseDups_nil_eq,
      @containsSub_replicate ['s', 'e', 'r', 'v', 'i', 'c', 'e'] 'z'
        (by decide) (by decide) (n + 1),
      @containsSub_replicate ['r', 'e', 'c', 'o', 'm', 'm', 'e', 'n', 'd'] 'z'
        (by decide) (by decide) (n + 1),
      @any_containsSub_replicate metric_keywords 'z' (by decide) (n + 1),
      @any_containsSub_replicate error_keywords 'z' (by decide) (n + 1)]

theorem joinWith_singleton (sep x : List Char) : joinWith sep [x] = x := by
  simp [joinWith, List.intercalate]

theorem compress_context_zContext (now : Nat) :
    (compress_context now zContext ContextCompressor.init).1 =
      .ok ("Key Information:".toList,
        { original_length := 5001, compressed_length := 16, reduction_num := 4985,
          compression_time := 0, key_phrases_count := 0,
          structured_info_categories := 4 }) := by
  have hlen16 : ("Key Information:".toList).length = 16 := by decide
  unfold compress_context zContext
  have hcond : ¬(10 * ((5001 : Nat) - (16 : Nat) : Int) < 3 * ((5001 : Nat) : Int)) := by
    decide
  simp only [ContextCompressor.init, LRUCache.init, LRUCache.get, lookupA,
    extract_key_phrases_replicate_z, extract_structured_info_replicate_z,
    List.length_replicate, joinWith_singleton]
  simp only [ne_eq, not_true, eq_self_iff_true, ite_false, ite_true,
    List.append_nil, joinWith_singleton, hlen16]
  rw [if_neg (by decide : ¬(5001 = 0))]
  simp only [if_neg hcond, hlen16, LRUCache.put, lookupA, List.length_nil]
  norm_num

/-! ## Claim theorems -/

/-- Helper: with a failure injected at the cache-key stage, a successful
prompt stage, and a long context whose compression succeeds and returns
`comp`, the pipeline returns the fallback built from the *compressed*
context `comp` (the reassigned Python local), with the original prompt. -/
theorem fail_key_after_compression
    (now : Nat) (prompt context domain : List Char) (st : OptimizerState)
    (hp : ((optimize_prompt now prompt domain st.prompt_optimizer).1).toOption.isSome
      = true)
    (hlen : 5000 < context.length)
    (comp : List Char)
    (hcomp : ((compress_context now context st.context_compressor).1).toOption.map
      Prod.fst = some comp) :
    ∀ r : PipelineResult,
      (optimize_request now prompt context domain true
        ⟨false, false, true, false⟩ st).1 = r →
      r.error.isSome = true ∧ r.cache_hit = false ∧
      r.optimized_request.map (fun q => q.prompt) = some prompt ∧
      r.optimized_request.map (fun q => q.context) = some comp := by
  intro r hr
  unfold optimize_request at hr
  split at hr
  · next hfp => simp at hfp
  · split at hr
    · next e po' heq =>
      rw [heq] at hp
      simp [Except.toOption] at hp
    · next optP pm po' heq =>
      split at hr
      · dsimp only at hr
        split at hr
        · next e cc' heq2 =>
          rw [heq2] at hcomp
          simp [Except.toOption] at hcomp
        · next cctx cm cc' heq2 =>
          rw [heq2] at hcomp
          simp only [Except.toOption, Option.map_some] at hcomp
          have hctx : cctx = comp := by simpa using hcomp
          subst hctx
          unfold optimize_request_tail at hr
          split at hr
          · subst hr
            simp [fallback_result]
          · next hplain => simp at hplain
      · next hcond =>
        exact absurd (by simp [hlen] : (true && decide (context.length > 5000)) = true)
          hcond

/-- C1 counterexample. The claim asserts that on any pipeline failure the
fallback carries the caller's original, unmodified context. It does not: a
failure injected at the cache-key stage, after compression of a
5001-character context has succeeded, returns the fallback built from the
reassigned local `context` — the 16-character compressed text — because the
`except` handler reads the mutated local (line 714), not the caller's
argument. The prompt, by contrast, is the original, and `cache_hit` is
false with the error recorded. -/
theorem C1_counterexample :
    c1_fault_run.error.isSome = true ∧
    c1_fault_run.cache_hit = false ∧
    c1_fault_run.optimized_request.map (fun q => q.prompt) = some "p".toList ∧
    c1_fault_run.optimized_request.map (fun q => q.context) =
      some "Key Information:".toList ∧
    ¬("Key Information:".toList = zContext) := by
  have hz : ¬("Key Information:".toList = zContext) := by
    intro h
    have hl := congrArg List.length h
    rw [zContext, List.length_replicate] at hl
    exact absurd hl (by decide)
  have hcomp : ((compress_context 0 zContext
      CursorAIOptimizer.init.context_compressor).1).toOption.map Prod.fst =
      some "Key Information:".toList := by
    rw [show CursorAIOptimizer.init.context_compressor = ContextCompressor.init
      from rfl, compress_context_zContext]
    rfl
  have hlen : 5000 < zContext.length := by
    rw [zContext, List.length_replicate]; decide
  have hp : ((optimize_prompt 0 "p".toList "devops".toList
      CursorAIOptimizer.init.prompt_optimizer).1).toOption.isSome = true := by decide
  have h := fail_key_after_compression 0 "p".toList zContext "devops".toList
    CursorAIOptimizer.init hp hlen "Key Information:".toList hcomp c1_fault_run rfl
  exact ⟨h.1, h.2.1, h.2.2.1, h.2.2.2, hz⟩

/-- C1 (amended): every pipeline failure — real or injected, at any
stage — is caught: the result has `cache_hit = false`, no response, the
`error` field set, and an `optimized_request` carrying the caller's
original, unmodified prompt and domain with no cache key. Its context is
the caller's original context unless the failure struck after context
compression had already succeeded, in which case — and only then — it is
exactly the compressed text (the `except` handler reads the reassigned
local): the theorem states both directions of that conditional, with
`compressionSucceeded` characterising "compression ran to completion".
The exception never propagates: `optimize_request` is total. -/
theorem C1_amended_fallback (now : Nat) (prompt context domain : List Char)
    (ec : Bool) (inj : Inject) (st : OptimizerState) :
    ∀ r : PipelineResult,
      (optimize_request now prompt context domain ec inj st).1 = r →
      r.error.isSome = true →
      r.cache_hit = false ∧ r.response = none ∧
      ∃ q, r.optimized_request = some q ∧ q.prompt = prompt ∧
        q.domain = domain ∧ q.cache_key = none ∧
        (compressionSucceeded now prompt context domain ec inj st →
          ((compress_context now context st.context_compressor).1).toOption.map
            Prod.fst = some q.context) ∧
        (¬compressionSucceeded now prompt context domain ec inj st →
          q.context = context) := by
  intro r hr herr
  unfold optimize_request at hr
  split at hr
  · next hfp =>
    subst hr
    refine ⟨rfl, rfl, ⟨_, rfl, rfl, rfl, rfl, ?_, fun _ => rfl⟩⟩
    intro hcr
    exact absurd hcr.1 (by simp [hfp])
  · next hnfp =>
    split at hr
    · next e po' heq =>
      subst hr
      refine ⟨rfl, rfl, ⟨_, rfl, rfl, rfl, rfl, ?_, fun _ => rfl⟩⟩
      intro hcr
      obtain ⟨v, po2, hok⟩ := hcr.2.1
      rw [heq] at hok
      simp at hok
    · next optP pm po' heq =>
      split at hr
      · next hthr =>
        dsimp only at hr
        split at hr
        · next hfc =>
          subst hr
          refine ⟨rfl, rfl, ⟨_, rfl, rfl, rfl, rfl, ?_, fun _ => rfl⟩⟩
          intro hcr
          exact absurd hcr.2.2.2.1 (by simp [hfc])
        · next hnfc =>
          split at hr
          · next e cc' heq2 =>
            subst hr
            refine ⟨rfl, rfl, ⟨_, rfl, rfl, rfl, rfl, ?_, fun _ => rfl⟩⟩
            intro hcr
            obtain ⟨v, cc2, hok⟩ := hcr.2.2.2.2
            rw [heq2] at hok
            simp at hok
          · next cctx cm cc' heq2 =>
            have hcr : compressionSucceeded now prompt context domain ec inj st :=
              ⟨Bool.eq_false_iff.mpr hnfp, ⟨(optP, pm), po', heq⟩, hthr,
                Bool.eq_false_iff.mpr hnfc, ⟨(cctx, cm), cc', heq2⟩⟩
            unfold optimize_request_tail at hr
            dsimp only at hr
            split at hr
            · subst hr
              refine ⟨rfl, rfl, ⟨_, rfl, rfl, rfl, rfl, ?_, ?_⟩⟩
              · intro _
                rw [heq2]
                rfl
              · intro hn
                exact absurd hcr hn
            · split at hr
              · subst hr
                refine ⟨rfl, rfl, ⟨_, rfl, rfl, rfl, rfl, ?_, ?_⟩⟩
                · intro _
                  rw [heq2]
                  rfl
                · intro hn
                  exact absurd hcr hn
              · split at hr
                · subst hr
                  simp at herr
                · subst hr
                  simp at herr
      · next hnthr =>
        dsimp only at hr
        unfold optimize_request_tail at hr
        dsimp only at hr
        split at hr
        · subst hr
          refine ⟨rfl, rfl, ⟨_, rfl, rfl, rfl, rfl, ?_, fun _ => rfl⟩⟩
          intro hcr
          exact absurd hcr.2.2.1 hnthr
        · split at hr
          · subst hr
            refine ⟨rfl, rfl, ⟨_, rfl, rfl, rfl, rfl, ?_, fun _ => rfl⟩⟩
            intro hcr
            exact absurd hcr.2.2.1 hnthr
          · split at hr
            · subst hr
              simp at herr
            · subst hr
              simp at herr

/-- C1 witness: a real in-scope failure — an empty prompt, whose
optimization raises `ZeroDivisionError` before compression can run — is
caught and yields the fallback shape of the amended claim. -/
theorem C1_amended_fallback_witness :
    (optimize_request 0 [] "c".toList "devops".toList true Inject.noFault
        CursorAIOptimizer.init).1.cache_hit = false ∧
    (optimize_request 0 [] "c".toList "devops".toList true Inject.noFault
        CursorAIOptimizer.init).1.response = none ∧
    ∃ q, (optimize_request 0 [] "c".toList "devops".toList true Inject.noFault
        CursorAIOptimizer.init).1.optimized_request = some q ∧
      q.prompt = [] ∧ q.domain = "devops".toList ∧ q.cache_key = none ∧
      (compressionSucceeded 0 [] "c".toList "devops".toList true Inject.noFault
          CursorAIOptimizer.init →
        ((compress_context 0 "c".toList
          CursorAIOptimizer.init.context_compressor).1).toOption.map
            Prod.fst = some q.context) ∧
      (¬compressionSucceeded 0 [] "c".toList "devops".toList true Inject.noFault
          CursorAIOptimizer.init →
        q.context = "c".toList) :=
  C1_amended_fallback 0 [] "c".toList "devops".toList true Inject.noFault
    CursorAIOptimizer.init
    (optimize_request 0 [] "c".toList "devops".toList true Inject.noFault
      CursorAIOptimizer.init).1 rfl (by decide)

/-- C2 evidence (code bug). After `Put(k,1)` at t=0 with ttl=10 and a
`Get(k)` at t=10 that observes the entry expired, the entry is removed from
the key map and timestamp map but its node is left in the access-order
sequence: the map is empty while the access-order sequence still holds one
node, violating the claimed size equality — `_remove_key` (lines 91–95)
never touches `access_order`, although the spec says the expired `Get`
"removes the entry and its access-order node". The `expired` and `misses`
counters do increment as specified. The stale node then corrupts the LRU
discipline the code itself relies on: with `maxsize = 1`, after the expired
`Get` of a, putting b and then c makes the eviction pop the stale node a,
remove nothing, count an eviction — and the map grows to 2 entries,
breaking the code's own `maxsize` bound. -/
theorem C2_expired_get_divergence :
    ((runOps (LRUCache.init Nat 1000 10)
        [.put 0 "k".toList 1, .get 10 "k".toList]).cache.length = 0 ∧
     (runOps (LRUCache.init Nat 1000 10)
        [.put 0 "k".toList 1, .get 10 "k".toList]).access_order = ["k".toList] ∧
     (runOps (LRUCache.init Nat 1000 10)
        [.put 0 "k".toList 1, .get 10 "k".toList]).expired = 1 ∧
     (runOps (LRUCache.init Nat 1000 10)
        [.put 0 "k".toList 1, .get 10 "k".toList]).misses = 1) ∧
    ((runOps (LRUCache.init Nat 1 10)
        [.put 0 "a".toList 1, .get 10 "a".toList, .put 10 "b".toList 2,
         .put 10 "c".toList 3]).cache.length = 2 ∧
     (runOps (LRUCache.init Nat 1 10)
        [.put 0 "a".toList 1, .get 10 "a".toList, .put 10 "b".toList 2,
         .put 10 "c".toList 3]).evictions = 1) := by
  decide

/-- C3 counterexample. The claim says the politeness phrases are removed
case-insensitively wherever they occur; but `str.replace` is
case-sensitive (only the detection lowercases), so the output of the worked
example still contains "Could you" — i.e. "could you" occurs
case-insensitively in the result. -/
theorem C3_counterexample :
    (c3_first.1.toOption.map (fun v => containsSub "could you".toList (lowerC v.1)))
      = some true := by
  decide

/-- C3 (amended): on `optimize_prompt("Could you please analyze my
pipeline", "devops")` the lower-case occurrence of "please" is removed but
"Could you" survives (detection is case-insensitive, replacement is
case-sensitive); "analyze" is present and "json" absent, so the
structured-JSON instruction is appended — and, because that instruction
contains "recommendations", the actionable-solutions instruction is
appended too; an identical second call returns the byte-identical cached
result and is recorded as a cache hit. -/
theorem C3_amended_optimize_devops :
    c3_first.1.toOption.map (fun v => v.1) = some c3_expected ∧
    c3_second.1.toOption.map (fun v => v.1) = some c3_expected ∧
    c3_second.1 = c3_first.1 ∧
    c3_second.2.optimization_cache.hits = 1 ∧
    c3_second.2.optimization_cache.misses = 1 ∧
    containsSub "please".toList (lowerC c3_expected) = false ∧
    containsSub "Could you".toList c3_expected = true ∧
    containsSub "Provide response in structured JSON format".toList c3_expected
      = true := by
  decide

/-- C5 counterexample. The claim says the compression-ratio division is
guarded so an empty prompt cannot fail; it is not: `optimize_prompt("")`
reaches `1 - optimized_length / original_length` with
`original_length = 0` and raises `ZeroDivisionError`. -/
theorem C5_counterexample :
    (optimize_prompt 0 [] "devops".toList PromptOptimizer.init).1
      = .error .zeroDivision := by
  decide

/-- C5 (amended): `optimize_prompt` on an empty prompt raises
`ZeroDivisionError` — the division is unguarded; the guard lives in the
caller: the pipeline's top-level handler catches the error and falls back
to the original (empty) prompt with `cache_hit = false` and the error
recorded, so the request still proceeds. -/
theorem C5_amended_empty_prompt :
    (optimize_prompt 0 [] "devops".toList PromptOptimizer.init).1
      = .error .zeroDivision ∧
    (optimize_request 0 [] "c".toList "devops".toList true Inject.noFault
        CursorAIOptimizer.init).1.error = some "division by zero".toList ∧
    (optimize_request 0 [] "c".toList "devops".toList true Inject.noFault
        CursorAIOptimizer.init).1.cache_hit = false ∧
    (optimize_request 0 [] "c".toList "devops".toList true Inject.noFault
        CursorAIOptimizer.init).1.optimized_request.map (fun q => q.prompt)
      = some [] := by
  decide

/-- C8: on a cache with `maxsize = 2`, `Put(a,1); Put(b,2); Put(c,3)`
evicts `a` as least-recently-used: `Get(a)` misses while `Get(b)` and
`Get(c)` return their values, and exactly one eviction is recorded. -/
theorem C8_lru_eviction_scenario :
    (LRUCache.get 0 "a".toList (runOps (LRUCache.init Nat 2 3600)
        [.put 0 "a".toList 1, .put 0 "b".toList 2, .put 0 "c".toList 3])).1
      = none ∧
    (LRUCache.get 0 "b".toList (stepOp (runOps (LRUCache.init Nat 2 3600)
        [.put 0 "a".toList 1, .put 0 "b".toList 2, .put 0 "c".toList 3])
        (.get 0 "a".toList))).1 = some 2 ∧
    (LRUCache.get 0 "c".toList (stepOp (stepOp (runOps (LRUCache.init Nat 2 3600)
        [.put 0 "a".toList 1, .put 0 "b".toList 2, .put 0 "c".toList 3])
        (.get 0 "a".toList)) (.get 0 "b".toList))).1 = some 3 ∧
    (runOps (LRUCache.init Nat 2 3600)
        [.put 0 "a".toList 1, .put 0 "b".toList 2, .put 0 "c".toList 3]).evictions
      = 1 := by
  decide

/-- C4 counterexample. For 100 recorded metrics with durations 1..100 s the
monitor reports p95 = 96 — the value at 0-based index 95 of the sorted
list — whereas the claim's "95th value in ascending order" is 95. -/
theorem C4_counterexample :
    (get_performance_summary 100 3600 c4_history).map
      (fun s => s.p95_response_time) = some 96 ∧
    ((c4_history.map (fun m => m.duration)).insertionSort (· ≤ ·)).getD 94 0
      = 95 ∧
    ¬((96 : ℚ) = 95) := by
  decide

/-- C4 (amended): for non-empty data the monitor's p-th percentile equals
the element at index `floor(p/100 * n)` of an ascending-sorted permutation
of the durations, clamped to the last index — which for p95 over 1..100 is
the value at 0-based index 95, i.e. the 96th value in ascending order (96),
not the 95th. -/
theorem C4_amended_percentile (data : List ℚ) (p : Nat) (h : ¬data = []) :
    ∃ sorted : List ℚ, data.Perm sorted ∧ sorted.Sorted (· ≤ ·) ∧
      percentile data p =
        sorted.getD (min (p * data.length / 100) (data.length - 1)) 0 := by
  refine ⟨data.insertionSort (· ≤ ·), (List.perm_insertionSort _ data).symm,
    List.sorted_insertionSort _ data, ?_⟩
  unfold percentile
  rw [if_neg (by simpa using h)]

/-- C4 witness: the amended percentile characterisation applied to the
concrete sample [3, 1, 2] at p = 95. -/
theorem C4_amended_percentile_witness :
    ¬(([3, 1, 2] : List ℚ) = []) ∧
    ∃ sorted : List ℚ, ([3, 1, 2] : List ℚ).Perm sorted ∧
      sorted.Sorted (· ≤ ·) ∧
      percentile [3, 1, 2] 95 =
        sorted.getD (min (95 * ([3, 1, 2] : List ℚ).length / 100)
          (([3, 1, 2] : List ℚ).length - 1)) 0 :=
  ⟨by decide, C4_amended_percentile [3, 1, 2] 95 (by decide)⟩

/-- Auxiliary: every cache operation leaves the `maxsize` bound unchanged. -/
theorem stepOp_maxsize {α : Type} (s : LRUState α) (op : CacheOp α) :
    (stepOp s op).maxsize = s.maxsize := by
  cases op with
  | clear => rfl
  | get now key =>
    simp only [stepOp, LRUCache.get]
    rcases hl : lookupA s.cache key with _ | v
    · rfl
    · dsimp only
      split <;> rfl
  | put now key value =>
    simp only [stepOp, LRUCache.put]
    by_cases h1 : (lookupA s.cache key).isSome = true
    · rw [if_pos h1]
    · rw [if_neg h1]
      by_cases h2 : s.cache.length ≥ s.maxsize
      · rw [if_pos h2]
        rcases ho : s.access_order with _ | ⟨oldest, rest⟩ <;> rfl
      · rw [if_neg h2]

/-- Auxiliary: running any operation sequence leaves `maxsize` unchanged. -/
theorem runOps_maxsize {α : Type} (ops : List (CacheOp α)) (s : LRUState α) :
    (runOps s ops).maxsize = s.maxsize := by
  induction ops generalizing s with
  | nil => rfl
  | cons op rest ih => rw [runOps, List.foldl_cons, ← runOps, ih, stepOp_maxsize]

/-- C6: starting from a fresh cache, no sequence of `Put` operations ever
pushes the number of stored entries beyond `maxsize` (a `Put` of a new key
at capacity first evicts the least-recently-used entry). -/
theorem C6_put_size_bound {α : Type} (maxsize ttl : Nat) (ops : List (CacheOp α))
    (h : ∀ op ∈ ops, op.isPut = true) :
    (runOps (LRUCache.init α maxsize ttl) ops).cache.length ≤ maxsize := by
  have hwf := runOps_puts_wf ops (LRUCache.init α maxsize ttl)
    (init_wf maxsize ttl) h
  have hms : (runOps (LRUCache.init α maxsize ttl) ops).maxsize = maxsize :=
    runOps_maxsize ops (LRUCache.init α maxsize ttl)
  exact le_of_le_of_eq hwf.2.2.2.2 hms

/-- C6 witness: three puts of distinct keys into a fresh cache of capacity
one leave at most one entry. -/
theorem C6_put_size_bound_witness :
    (∀ op ∈ ([.put 0 "a".toList 1, .put 1 "b".toList 2, .put 2 "c".toList 3] :
        List (CacheOp Nat)), op.isPut = true) ∧
    (runOps (LRUCache.init Nat 1 10)
      [.put 0 "a".toList 1, .put 1 "b".toList 2, .put 2 "c".toList 3]).cache.length
      ≤ 1 :=
  ⟨by decide, C6_put_size_bound 1 10 _ (by decide)⟩

/-- C7: re-putting an existing key unconditionally overwrites its value and
refreshes its TTL timestamp to the write instant; concretely, with
ttl = 10 s, `Put(k,1)` at t=0 then `Put(k,2)` at t=9 makes `Get(k)` at t=15
a hit returning 2 (the TTL clock restarted at t=9). -/
theorem C7_reput_refreshes_ttl {α : Type} (s : LRUState α) (key : List Char)
    (value : α) (now : Nat) (h : (lookupA s.cache key).isSome = true) :
    (∃ s', LRUCache.put now key value s = .ok s' ∧
      lookupA s'.cache key = some value ∧
      lookupA s'.timestamps key = some now) ∧
    (LRUCache.get 15 "k".toList (runOps (LRUCache.init Nat 1000 10)
      [.put 0 "k".toList 1, .put 9 "k".toList 2])).1 = some 2 ∧
    (LRUCache.get 15 "k".toList (runOps (LRUCache.init Nat 1000 10)
      [.put 0 "k".toList 1, .put 9 "k".toList 2])).2.hits = 1 := by
  refine ⟨?_, by decide, by decide⟩
  unfold LRUCache.put
  rw [if_pos h]
  exact ⟨_, rfl, lookupA_insertA_self _ _ _, lookupA_insertA_self _ _ _⟩

/-- C7 witness: the overwrite property applied to the concrete state
reached by `Put(k,1)` at t=0, re-putting value 2 at t=9. -/
theorem C7_reput_refreshes_ttl_witness :
    (∃ s', LRUCache.put 9 "k".toList 2
        (stepOp (LRUCache.init Nat 1000 10) (.put 0 "k".toList 1)) = .ok s' ∧
      lookupA s'.cache "k".toList = some 2 ∧
      lookupA s'.timestamps "k".toList = some 9) ∧
    (LRUCache.get 15 "k".toList (runOps (LRUCache.init Nat 1000 10)
      [.put 0 "k".toList 1, .put 9 "k".toList 2])).1 = some 2 ∧
    (LRUCache.get 15 "k".toList (runOps (LRUCache.init Nat 1000 10)
      [.put 0 "k".toList 1, .put 9 "k".toList 2])).2.hits = 1 :=
  C7_reput_refreshes_ttl (stepOp (LRUCache.init Nat 1000 10) (.put 0 "k".toList 1))
    "k".toList 2 9 (by decide)

/-- C9: when the context is at most 5000 characters long, or compression is
disabled, the context compressor never runs — the compressor's cache state
is untouched, no compression metrics are produced, and
"context_compression" does not appear in `optimizations_applied` (the
fallback's result dictionary holds only the error, so the tag is absent
there as well). -/
theorem C9_no_compression_small_context (now : Nat)
    (prompt context domain : List Char) (ec : Bool) (inj : Inject)
    (st : OptimizerState) (h : context.length ≤ 5000 ∨ ec = false) :
    ∀ rs : PipelineResult × OptimizerState,
      optimize_request now prompt context domain ec inj st = rs →
      ¬("context_compression".toList ∈ rs.1.optimizations_applied) ∧
      rs.1.compression_metrics = none ∧
      rs.2.context_compressor = st.context_compressor := by
  intro rs hr
  have hcond : ¬((ec && decide (context.length > 5000)) = true) := by
    rcases h with h | h
    · simp only [Bool.and_eq_true, decide_eq_true_eq]
      rintro ⟨-, hgt⟩
      omega
    · simp [h]
  unfold optimize_request at hr
  split at hr
  · subst hr
    exact ⟨by simp [fallback_result], rfl, rfl⟩
  · split at hr
    · next e po' heq =>
      subst hr
      exact ⟨by simp [fallback_result], rfl, rfl⟩
    · next optP pm po' heq =>
      dsimp only at hr
      unfold optimize_request_tail at hr
      dsimp only at hr
      split at hr
      · subst hr
        exact ⟨by simp [fallback_result], rfl, rfl⟩
      · split at hr
        · subst hr
          exact ⟨by simp [fallback_result], rfl, rfl⟩
        · split at hr
          · subst hr
            refine ⟨?_, rfl, rfl⟩
            dsimp only
            decide
          · subst hr
            refine ⟨?_, rfl, rfl⟩
            dsimp only
            decide

/-- C9 witness: a short context with compression enabled — the compressor
is bypassed. -/
theorem C9_no_compression_small_context_witness :
    ¬("context_compression".toList ∈
      (optimize_request 0 "p".toList "c".toList "devops".toList true
        Inject.noFault CursorAIOptimizer.init).1.optimizations_applied) ∧
    (optimize_request 0 "p".toList "c".toList "devops".toList true
      Inject.noFault CursorAIOptimizer.init).1.compression_metrics = none ∧
    (optimize_request 0 "p".toList "c".toList "devops".toList true
        Inject.noFault CursorAIOptimizer.init).2.context_compressor =
      CursorAIOptimizer.init.context_compressor :=
  C9_no_compression_small_context 0 "p".toList "c".toList "devops".toList true
    Inject.noFault CursorAIOptimizer.init (Or.inl (by decide))
    (optimize_request 0 "p".toList "c".toList "devops".toList true
      Inject.noFault CursorAIOptimizer.init) rfl

/-- Auxiliary: every single cache operation leaves each statistics counter
unchanged or incremented — the counters are nondecreasing. -/
theorem stepOp_counters_mono {α : Type} (s : LRUState α) (op : CacheOp α) :
    s.hits ≤ (stepOp s op).hits ∧ s.misses ≤ (stepOp s op).misses ∧
    s.evictions ≤ (stepOp s op).evictions ∧ s.expired ≤ (stepOp s op).expired := by
  cases op with
  | clear => exact ⟨le_refl _, le_refl _, le_refl _, le_refl _⟩
  | get now key =>
    simp only [stepOp, LRUCache.get]
    rcases hl : lookupA s.cache key with _ | v
    · exact ⟨le_refl _, Nat.le_succ _, le_refl _, le_refl _⟩
    · dsimp only
      split
      · exact ⟨Nat.le_succ _, le_refl _, le_refl _, le_refl _⟩
      · exact ⟨le_refl _, Nat.le_succ _, le_refl _, Nat.le_succ _⟩
  | put now key value =>
    simp only [stepOp, LRUCache.put]
    by_cases h1 : (lookupA s.cache key).isSome = true
    · rw [if_pos h1]
      exact ⟨le_refl _, le_refl _, le_refl _, le_refl _⟩
    · rw [if_neg h1]
      by_cases h2 : s.cache.length ≥ s.maxsize
      · rw [if_pos h2]
        rcases ho : s.access_order with _ | ⟨oldest, rest⟩
        · exact ⟨le_refl _, le_refl _, le_refl _, le_refl _⟩
        · exact ⟨le_refl _, le_refl _, Nat.le_succ _, le_refl _⟩
      · rw [if_neg h2]
        exact ⟨le_refl _, le_refl _, le_refl _, le_refl _⟩

/-- C10: `Clear()` empties the key map, the timestamp map, and the
access-order sequence, while leaving the hits, misses, evictions, and
expired counters untouched; every operation leaves each counter unchanged
or larger, so `Stats()` after a `Clear()` still reports the pre-clear
counts. -/
theorem C10_clear_preserves_counters {α : Type} (s : LRUState α)
    (op : CacheOp α) :
    ((LRUCache.clear s).cache = [] ∧ (LRUCache.clear s).timestamps = [] ∧
     (LRUCache.clear s).access_order = [] ∧
     (LRUCache.clear s).hits = s.hits ∧ (LRUCache.clear s).misses = s.misses ∧
     (LRUCache.clear s).evictions = s.evictions ∧
     (LRUCache.clear s).expired = s.expired) ∧
    (s.hits ≤ (stepOp s op).hits ∧ s.misses ≤ (stepOp s op).misses ∧
     s.evictions ≤ (stepOp s op).evictions ∧
     s.expired ≤ (stepOp s op).expired) ∧
    ((LRUCache.get_stats (LRUCache.clear s)).hits = s.hits ∧
     (LRUCache.get_stats (LRUCache.clear s)).misses = s.misses ∧
     (LRUCache.get_stats (LRUCache.clear s)).evictions = s.evictions ∧
     (LRUCache.get_stats (LRUCache.clear s)).expired = s.expired ∧
     (LRUCache.get_stats (LRUCache.clear s)).cache_size = 0) :=
  ⟨⟨rfl, rfl, rfl, rfl, rfl, rfl, rfl⟩, stepOp_counters_mono s op,
    ⟨rfl, rfl, rfl, rfl, rfl⟩⟩
